import Mathlib

/-
Shallow embedding of the semantic query cache of tools/cache.py (class QueryCache).

Modelling conventions:
* Python strings are modelled as `List Char` (abbreviated `Txt`); the ASCII fragments of
  str.lower / str.isupper / str.isalpha / the regex character classes are modelled
  explicitly (the repository only feeds ASCII queries to the cache).
* Python floats are modelled as rationals (`ℚ`); all similarity arithmetic is exact.
* `datetime.utcnow()` timestamps are modelled as rational numbers of seconds; a call
  receives the current time `now` as an explicit argument.
* The MongoDB collection is modelled as a `List CacheDoc` in insertion order:
  `find_one` is `List.find?`, `delete_one` erases the first match, upsert replaces the
  first match or appends.  The unique index on query_hash is a hypothesis where needed.
* `hashlib.md5(s).hexdigest()` is modelled as an injective digest, i.e. the semantic
  key IS the joined semantic string itself (md5 collisions are assumed absent).
-/

abbrev Txt := List Char

/-! ### Character classes (ASCII fragment of the Python predicates) -/

def lower_chars : Txt := "abcdefghijklmnopqrstuvwxyz".data

def upper_chars : Txt := "ABCDEFGHIJKLMNOPQRSTUVWXYZ".data

def digit_chars : Txt := "0123456789".data

def space_chars : Txt := [' ', '\t', '\n', '\r', '\x0b', '\x0c']

def is_lower_char (c : Char) : Bool := lower_chars.contains c

def is_upper_char (c : Char) : Bool := upper_chars.contains c

def is_digit_char (c : Char) : Bool := digit_chars.contains c

def is_alpha_char (c : Char) : Bool := is_upper_char c || is_lower_char c

def is_space_char (c : Char) : Bool := space_chars.contains c

/-- Regex class \w of the normalizer: word characters. -/
def is_word_char (c : Char) : Bool := is_alpha_char c || is_digit_char c || c == '_'

/-- Python str.lower, one character (ASCII table). -/
def py_toLower (c : Char) : Char :=
  match (upper_chars.zip lower_chars).find? (fun p => decide (p.1 = c)) with
  | some p => p.2
  | none => c

/-- Python word.isupper(): at least one cased character and no lowercase one. -/
def py_isupper (w : Txt) : Bool :=
  w.any (fun c => is_upper_char c || is_lower_char c) && w.all (fun c => !is_lower_char c)

/-- Python word.isalpha(): nonempty and all alphabetic. -/
def py_isalpha (w : Txt) : Bool := !w.isEmpty && w.all is_alpha_char

/-! ### Tokenisation -/

/-- Step 2 of _normalize_query: re.sub(r'[^\w\s$%]', ' ', s), one character. -/
def clean_char (c : Char) : Char :=
  if is_word_char c || is_space_char c || c == '$' || c == '%' then c else ' '

def splitWS_aux : List Char → List Char → List Txt
  | [], acc => if acc.isEmpty then [] else [acc.reverse]
  | c :: cs, acc =>
    if is_space_char c then
      if acc.isEmpty then splitWS_aux cs [] else acc.reverse :: splitWS_aux cs []
    else splitWS_aux cs (c :: acc)

/-- Python s.split(): split on whitespace runs, dropping empty tokens.  The
whitespace-collapsing re.sub(r'\s+', ' ') of the source is a no-op with respect to
this splitter, so it needs no separate modelling step. -/
def splitWS (s : Txt) : List Txt := splitWS_aux s []

/-- Python sep.join(parts). -/
def join_sep (sep : Txt) : List Txt → Txt
  | [] => []
  | [w] => w
  | w :: ws => w ++ sep ++ join_sep sep ws

/-! ### Fixed word lists of QueryCache.__init__ and _extract_key_entities -/

def stop_words : List Txt :=
  ["a", "an", "and", "are", "as", "at", "be", "by", "for", "from",
   "has", "he", "in", "is", "it", "its", "of", "on", "that", "the",
   "to", "was", "will", "with", "can", "you", "tell", "me", "about",
   "what", "how", "when", "where", "why", "which", "who", "this",
   "these", "those", "have", "had", "do", "does", "did", "would",
   "could", "should", "may", "might", "must", "shall", "will"].map String.data

def company_names : List Txt :=
  ["apple", "tesla", "microsoft", "google", "amazon", "facebook", "meta",
   "netflix", "nvidia", "amd", "intel"].map String.data

def time_words : List Txt :=
  ["today", "yesterday", "tomorrow", "week", "month", "year", "quarter",
   "q1", "q2", "q3", "q4"].map String.data

def location_words : List Txt :=
  ["pakistan", "china", "usa", "uk", "india", "japan", "europe", "asia",
   "america"].map String.data

def action_words : List Txt :=
  ["dropping", "falling", "rising", "up", "down", "crash", "rally", "surge",
   "plunge", "gain", "loss"].map String.data

def financial_synonyms : List (Txt × List Txt) :=
  [("price", ["cost", "value", "worth", "rate"]),
   ("stock", ["shares", "equity", "ticker"]),
   ("crypto", ["cryptocurrency", "bitcoin", "btc", "digital currency"]),
   ("market", ["trading", "exchange", "financial market"]),
   ("news", ["update", "announcement", "report", "information"]),
   ("earnings", ["profit", "revenue", "income", "financial results"]),
   ("regulation", ["regulatory", "compliance", "legal", "policy"]),
   ("weather", ["climate", "temperature", "forecast", "conditions"])].map
    (fun p => (p.1.data, p.2.map String.data))

def financial_topics : List (Txt × List Txt) :=
  [("earnings", ["earnings", "profit", "revenue", "income", "quarterly", "results"]),
   ("crypto", ["crypto", "bitcoin", "btc", "ethereum", "eth", "blockchain", "digital"]),
   ("stocks", ["stock", "shares", "equity", "market", "trading", "investment"]),
   ("regulation", ["regulation", "regulatory", "sec", "cftc", "compliance", "legal"]),
   ("economy", ["economy", "economic", "gdp", "inflation", "interest", "rates"]),
   ("forex", ["forex", "currency", "dollar", "euro", "yen", "pound"])].map
    (fun p => (p.1.data, p.2.map String.data))

/-! ### QueryCache._normalize_query -/

/-- Token list of the normalized query: lowercase, strip punctuation (keeping $ and %),
split on whitespace, drop stop words. -/
def normalize_words (query : Txt) : List Txt :=
  (splitWS ((query.map py_toLower).map clean_char)).filter
    (fun w => decide (w ∉ stop_words))

/-- QueryCache._normalize_query: the filtered tokens rejoined with single spaces. -/
def normalize_query (query : Txt) : Txt := join_sep [' '] (normalize_words query)

/-! ### QueryCache._extract_key_entities -/

structure EntitySet where
  companies : List Txt
  locations : List Txt
  topics : List Txt
  time_periods : List Txt
  keywords : List Txt
  actions : List Txt
  numbers : List Txt
deriving DecidableEq

def emptyEntities : EntitySet :=
  { companies := [], locations := [], topics := [], time_periods := [],
    keywords := [], actions := [], numbers := [] }

/-- Regex ^\d+\.?\d*%?$ of the numbers branch (the greedy match is equivalent to the
backtracking one for this pattern). -/
def match_number (w : Txt) : Bool :=
  let s1 := w.span is_digit_char
  if s1.1.isEmpty then false
  else
    let r2 := match s1.2 with
      | '.' :: rest => rest
      | r => r
    let s3 := r2.span is_digit_char
    let r4 := match s3.2 with
      | '%' :: rest => rest
      | r => r
    r4.isEmpty

/-- One iteration of the first classification loop of _extract_key_entities. -/
def pass1_step (e : EntitySet) (word : Txt) : EntitySet :=
  if py_isupper word = true ∧ 1 ≤ word.length ∧ word.length ≤ 5 ∧ py_isalpha word = true then
    { e with companies := e.companies ++ [word] }
  else if word.map py_toLower ∈ company_names then
    { e with companies := e.companies ++ [word.map py_toLower] }
  else if word ∈ time_words then
    { e with time_periods := e.time_periods ++ [word] }
  else if word ∈ location_words then
    { e with locations := e.locations ++ [word] }
  else if match_number word = true then
    { e with numbers := e.numbers ++ [word] }
  else if word ∈ action_words then
    { e with actions := e.actions ++ [word] }
  else
    { e with keywords := e.keywords ++ [word] }

/-- Second loop: first topic of financial_synonyms whose synonym list (or name)
matches the word, if any (the inner break). -/
def synonym_topic (word : Txt) : Option Txt :=
  (financial_synonyms.find? (fun p => decide (word ∈ p.2 ∨ word = p.1))).map Prod.fst

/-- Third loop: topics of financial_topics having some keyword among the words. -/
def topics_of_words (words : List Txt) : List Txt :=
  financial_topics.filterMap
    (fun p => if p.2.any (fun k => decide (k ∈ words)) then some p.1 else none)

/-- QueryCache._extract_key_entities. -/
def extract_key_entities (query : Txt) : EntitySet :=
  let words := splitWS (normalize_query query)
  let e := words.foldl pass1_step emptyEntities
  { e with topics := e.topics ++ words.filterMap synonym_topic ++ topics_of_words words }

/-! ### QueryCache._generate_semantic_key / _generate_query_hash -/

/-- Lexicographic comparison on code points, Python string ordering. -/
def str_le (a b : Txt) : Bool :=
  match a, b with
  | [], _ => true
  | _ :: _, [] => false
  | c :: cs, d :: ds => if c = d then str_le cs ds else decide (c < d)

def sorted_insert (x : Txt) : List Txt → List Txt
  | [] => [x]
  | y :: ys => if str_le x y then x :: y :: ys else y :: sorted_insert x ys

/-- Python sorted(): ascending lexicographic sort (insertion sort; equal strings are
identical lists, so stability is unobservable). -/
def py_sorted : List Txt → List Txt
  | [] => []
  | x :: xs => sorted_insert x (py_sorted xs)

/-- Separator of the semantic key components. -/
def sep2 : Txt := [':', ':']

/-- QueryCache._generate_semantic_key.  The md5 hexdigest is modelled as an injective
digest, so the key is the joined semantic string itself. -/
def generate_semantic_key (query intent : Txt) : Txt :=
  let normalized := normalize_query query
  let entities := extract_key_entities query
  join_sep sep2
    [intent, normalized,
     join_sep ['|'] (py_sorted entities.companies),
     join_sep ['|'] (py_sorted entities.topics),
     join_sep ['|'] (py_sorted entities.locations)]

/-- QueryCache._generate_query_hash delegates to the semantic key. -/
def generate_query_hash (query intent : Txt) : Txt := generate_semantic_key query intent

/-! ### QueryCache._calculate_similarity -/

/-- Cardinality of set(l). -/
def set_card (l : List Txt) : Nat := l.dedup.length

/-- Cardinality of set(l1) ∩ set(l2). -/
def inter_card (l1 l2 : List Txt) : Nat :=
  (l1.dedup.filter (fun x => decide (x ∈ l2))).length

/-- Cardinality of set(l1) ∪ set(l2). -/
def union_card (l1 l2 : List Txt) : Nat := ((l1 ++ l2).dedup).length

/-- Python set equality set(l1) == set(l2). -/
def sets_equal (l1 l2 : List Txt) : Prop :=
  (∀ x ∈ l1, x ∈ l2) ∧ (∀ x ∈ l2, x ∈ l1)

instance (l1 l2 : List Txt) : Decidable (sets_equal l1 l2) := by
  unfold sets_equal; infer_instance

/-- One iteration of the weighted loop of _calculate_similarity: the pair of
(score contribution, max_possible_score contribution) of one entity type. -/
def bucket_score (l1 l2 : List Txt) (w : ℚ) : ℚ × ℚ :=
  if l1 ≠ [] ∨ l2 ≠ [] then
    if 0 < union_card l1 l2 then
      (((inter_card l1 l2 : ℚ) / (union_card l1 l2 : ℚ)) * w, w)
    else (0, 0)
  else (0, 0)

/-- QueryCache._calculate_similarity: weighted Jaccard accumulation over the six
weighted entity types (numbers carries no weight), exact-match bonuses, final ratio. -/
def calculate_similarity (e1 e2 : EntitySet) : ℚ :=
  let p1 := bucket_score e1.companies e2.companies 0.4
  let p2 := bucket_score e1.topics e2.topics 0.3
  let p3 := bucket_score e1.actions e2.actions 0.2
  let p4 := bucket_score e1.locations e2.locations 0.1
  let p5 := bucket_score e1.time_periods e2.time_periods 0.1
  let p6 := bucket_score e1.keywords e2.keywords 0.05
  let total0 := p1.1 + p2.1 + p3.1 + p4.1 + p5.1 + p6.1
  let max0 := p1.2 + p2.2 + p3.2 + p4.2 + p5.2 + p6.2
  let cbonus : Prop :=
    e1.companies ≠ [] ∧ e2.companies ≠ [] ∧ sets_equal e1.companies e2.companies
  let total1 := if cbonus then total0 + 0.1 else total0
  let max1 := if cbonus then max0 + 0.1 else max0
  let tbonus : Prop :=
    e1.topics ≠ [] ∧ e2.topics ≠ [] ∧ sets_equal e1.topics e2.topics
  let total2 := if tbonus then total1 + 0.05 else total1
  let max2 := if tbonus then max1 + 0.05 else max1
  if 0 < max2 then total2 / max2 else 0

/-! ### The response payloads and the store -/

/-- Scalar payload values the cache can itself write into a response dict. -/
inductive RLeaf where
  | lstr : Txt → RLeaf
  | lnum : ℚ → RLeaf
  | lbool : Bool → RLeaf
deriving DecidableEq

/-- Response payloads: a flat JSON-like dict or an opaque scalar.  The cache only
reads and writes top-level keys, so one dict level suffices for every behaviour the
cache can observe. -/
inductive RVal where
  | rdict : List (Txt × RLeaf) → RVal
  | rleaf : RLeaf → RVal
deriving DecidableEq

/-- Python dict assignment d[k] = v: replace in place or append at the end. -/
def dict_set : List (Txt × RLeaf) → Txt → RLeaf → List (Txt × RLeaf)
  | [], k, v => [(k, v)]
  | (k1, v1) :: rest, k, v =>
    if k1 = k then (k, v) :: rest else (k1, v1) :: dict_set rest k v

/-- Python test for responses signalling failure, as in the spec: 'error' in response. -/
def has_error_key (r : RVal) : Bool :=
  match r with
  | RVal.rdict fs => fs.any (fun p => decide (p.1 = "error".data))
  | RVal.rleaf _ => false

/-- One MongoDB document of the query cache collection (all fields written by
cache_response are present). -/
structure CacheDoc where
  query_hash : Txt
  original_query : Txt
  normalized_query : Txt
  intent : Txt
  entities : EntitySet
  response : RVal
  created_at : ℚ
  cache_ttl : ℚ
deriving DecidableEq

/-- Configuration fields the cache consumes. -/
structure Config where
  CACHE_ENABLED : Bool
  CACHE_TTL : ℚ

/-- collection.find_one({"query_hash": h}). -/
def find_doc (store : List CacheDoc) (h : Txt) : Option CacheDoc :=
  store.find? (fun e => decide (e.query_hash = h))

/-- collection.delete_one({"query_hash": h}): first match removed. -/
def delete_doc (store : List CacheDoc) (h : Txt) : List CacheDoc :=
  store.eraseP (fun e => decide (e.query_hash = h))

/-- update_one with $set and upsert=True: replace the first match in place, else
append.  The unique index keeps at most one match. -/
def upsert_doc : List CacheDoc → Txt → CacheDoc → List CacheDoc
  | [], _, doc => [doc]
  | e :: es, h, doc =>
    if e.query_hash = h then doc :: es else e :: upsert_doc es h doc

/-! ### QueryCache.get_cached_response -/

/-- Literal threshold 0.6 of the semantic scan. -/
def similarity_threshold : ℚ := 0.6

/-- Semantic-matching fallback of get_cached_response: scan the same-intent entries
of the TTL window (created_at >= now - CACHE_TTL), keep the best entry of score
> best so far and >= 0.6, and return its response annotated in memory.  The store is
returned unchanged by this phase. -/
def semantic_scan (cfg : Config) (store : List CacheDoc) (intent : Txt)
    (entities : EntitySet) (now : ℚ) : Option RVal × List CacheDoc :=
  let candidates := store.filter
    (fun d => decide (d.intent = intent) && decide (now - cfg.CACHE_TTL ≤ d.created_at))
  let best := candidates.foldl
    (fun (acc : Option CacheDoc × ℚ) d =>
      let score := calculate_similarity entities d.entities
      if acc.2 < score ∧ similarity_threshold ≤ score then (some d, score) else acc)
    (none, 0)
  match best.1 with
  | some bm =>
    let resp := match bm.response with
      | RVal.rdict fs =>
        RVal.rdict (dict_set (dict_set (dict_set fs
          "cached".data (RLeaf.lbool true))
          "cache_similarity".data (RLeaf.lnum best.2))
          "original_query".data (RLeaf.lstr bm.original_query))
      | r => r
    (some resp, store)
  | none => (none, store)

/-- QueryCache.get_cached_response.  Returns the response (if any) and the store
after the call (an expired exact-hash entry is deleted as a side effect). -/
def get_cached_response (cfg : Config) (store : List CacheDoc) (query intent : Txt)
    (now : ℚ) : Option RVal × List CacheDoc :=
  if ¬ cfg.CACHE_ENABLED then (none, store)
  else
    let query_hash := generate_query_hash query intent
    let entities := extract_key_entities query
    match find_doc store query_hash with
    | some doc =>
      if now - doc.created_at < cfg.CACHE_TTL then (some doc.response, store)
      else semantic_scan cfg (delete_doc store query_hash) intent entities now
    | none => semantic_scan cfg store intent entities now

/-! ### QueryCache.cache_response -/

/-- The document cache_response builds for (query, intent, response) at time now. -/
def build_doc (cfg : Config) (query intent : Txt) (response : RVal) (now : ℚ) :
    CacheDoc :=
  { query_hash := generate_query_hash query intent
    original_query := query
    normalized_query := normalize_query query
    intent := intent
    entities := extract_key_entities query
    response := response
    created_at := now
    cache_ttl := cfg.CACHE_TTL }

/-- QueryCache.cache_response: upsert keyed by the query hash.  The returned flag is
True when a document was inserted (upserted_id) or an existing one actually changed
(modified_count > 0); a $set writing identical values reports False. -/
def cache_response (cfg : Config) (store : List CacheDoc) (query intent : Txt)
    (response : RVal) (now : ℚ) : Bool × List CacheDoc :=
  if ¬ cfg.CACHE_ENABLED then (false, store)
  else
    let query_hash := generate_query_hash query intent
    let doc := build_doc cfg query intent response now
    match find_doc store query_hash with
    | some old => (decide (old ≠ doc), upsert_doc store query_hash doc)
    | none => (true, store ++ [doc])

/-! ### QueryCache.get_cache_stats -/

/-- Fields of the statistics relevant to the claims (intent_distribution and the
oldest/newest timestamps are straightforward aggregates of the same store and are
omitted). -/
structure CacheStats where
  total_entries : Nat
  cache_ttl_seconds : ℚ
deriving DecidableEq

/-- QueryCache.get_cache_stats: total_entries is collection.count_documents({}),
the number of physically present documents. -/
def get_cache_stats (cfg : Config) (store : List CacheDoc) : CacheStats :=
  { total_entries := store.length, cache_ttl_seconds := cfg.CACHE_TTL }

/-! ### Facts about the set cardinalities of the similarity scorer -/

theorem inter_card_eq (l1 l2 : List Txt) :
    inter_card l1 l2 = (l1.toFinset ∩ l2.toFinset).card := by
  have hnd : (l1.dedup.filter (fun x => decide (x ∈ l2))).Nodup :=
    l1.nodup_dedup.filter _
  rw [inter_card, ← List.toFinset_card_of_nodup hnd]
  congr 1
  ext x
  simp [List.mem_filter, List.mem_dedup]

theorem union_card_eq (l1 l2 : List Txt) :
    union_card l1 l2 = (l1.toFinset ∪ l2.toFinset).card := by
  rw [union_card, ← List.card_toFinset, List.toFinset_append]

theorem inter_card_le_union_card (l1 l2 : List Txt) :
    inter_card l1 l2 ≤ union_card l1 l2 := by
  rw [inter_card_eq, union_card_eq]
  exact Finset.card_le_card (Finset.inter_subset_left.trans Finset.subset_union_left)

theorem bucket_score_nonneg (l1 l2 : List Txt) (w : ℚ) (hw : 0 ≤ w) :
    0 ≤ (bucket_score l1 l2 w).1 ∧ (bucket_score l1 l2 w).1 ≤ (bucket_score l1 l2 w).2 ∧
      0 ≤ (bucket_score l1 l2 w).2 := by
  unfold bucket_score
  split
  · split
    · rename_i hne hu
      have h1 : (0 : ℚ) ≤ (inter_card l1 l2 : ℚ) / (union_card l1 l2 : ℚ) := by
        positivity
      have h2 : (inter_card l1 l2 : ℚ) / (union_card l1 l2 : ℚ) ≤ 1 := by
        rw [div_le_one (by exact_mod_cast hu)]
        exact_mod_cast inter_card_le_union_card l1 l2
      refine ⟨mul_nonneg h1 hw, ?_, hw⟩
      simpa using mul_le_mul_of_nonneg_right h2 hw
    · simp
  · simp

theorem bucket_score_diag (l : List Txt) (w : ℚ) (hl : l ≠ []) :
    bucket_score l l w = (w, w) := by
  have hmem : ∀ x ∈ l.dedup, (fun x => decide (x ∈ l)) x = true := by
    intro x hx
    simpa using List.mem_dedup.mp hx
  have hinter : inter_card l l = l.dedup.length := by
    rw [inter_card, List.filter_eq_self.mpr hmem]
  have hunion : union_card l l = l.dedup.length := by
    rw [union_card_eq, Finset.union_self, List.card_toFinset]
  have hpos : 0 < l.dedup.length := by
    refine List.length_pos.mpr (fun hnil => hl ?_)
    exact (List.dedup_eq_nil l).mp hnil
  unfold bucket_score
  rw [if_pos (Or.inl hl), hinter, hunion, if_pos hpos]
  have hne : ((l.dedup.length : ℚ)) ≠ 0 := by exact_mod_cast hpos.ne.symm
  rw [div_self hne, one_mul]

theorem bucket_score_nil (w : ℚ) : bucket_score [] [] w = (0, 0) := by
  simp [bucket_score]

theorem bucket_score_diag_all (l : List Txt) (w : ℚ) :
    bucket_score l l w = (if l ≠ [] then w else 0, if l ≠ [] then w else 0) := by
  by_cases h : l = []
  · subst h; simp [bucket_score_nil]
  · simp [h, bucket_score_diag l w h]

theorem sets_equal_refl (l : List Txt) : sets_equal l l := ⟨fun _ h => h, fun _ h => h⟩

theorem ratio_bounds (t m : ℚ) (h0 : 0 ≤ t) (h1 : t ≤ m) :
    0 ≤ (if 0 < m then t / m else 0) ∧ (if 0 < m then t / m else 0) ≤ 1 := by
  split
  · rename_i hm
    exact ⟨div_nonneg h0 hm.le, (div_le_one hm).mpr h1⟩
  · norm_num

theorem similarity_nonneg_le_one (e1 e2 : EntitySet) :
    0 ≤ calculate_similarity e1 e2 ∧ calculate_similarity e1 e2 ≤ 1 := by
  obtain ⟨ha1, hb1, hc1⟩ := bucket_score_nonneg e1.companies e2.companies 0.4 (by norm_num)
  obtain ⟨ha2, hb2, hc2⟩ := bucket_score_nonneg e1.topics e2.topics 0.3 (by norm_num)
  obtain ⟨ha3, hb3, hc3⟩ := bucket_score_nonneg e1.actions e2.actions 0.2 (by norm_num)
  obtain ⟨ha4, hb4, hc4⟩ := bucket_score_nonneg e1.locations e2.locations 0.1 (by norm_num)
  obtain ⟨ha5, hb5, hc5⟩ :=
    bucket_score_nonneg e1.time_periods e2.time_periods 0.1 (by norm_num)
  obtain ⟨ha6, hb6, hc6⟩ := bucket_score_nonneg e1.keywords e2.keywords 0.05 (by norm_num)
  simp only [calculate_similarity]
  refine ratio_bounds _ _ ?_ ?_
  · split_ifs <;> linarith
  · split_ifs <;> linarith

theorem similarity_diag (e : EntitySet)
    (hne : e.companies ≠ [] ∨ e.topics ≠ [] ∨ e.actions ≠ [] ∨ e.locations ≠ [] ∨
      e.time_periods ≠ [] ∨ e.keywords ≠ []) :
    calculate_similarity e e = 1 := by
  have t1 : (0:ℚ) ≤ (if e.companies ≠ [] then (0.4:ℚ) else 0) := by split <;> norm_num
  have t2 : (0:ℚ) ≤ (if e.topics ≠ [] then (0.3:ℚ) else 0) := by split <;> norm_num
  have t3 : (0:ℚ) ≤ (if e.actions ≠ [] then (0.2:ℚ) else 0) := by split <;> norm_num
  have t4 : (0:ℚ) ≤ (if e.locations ≠ [] then (0.1:ℚ) else 0) := by split <;> norm_num
  have t5 : (0:ℚ) ≤ (if e.time_periods ≠ [] then (0.1:ℚ) else 0) := by split <;> norm_num
  have t6 : (0:ℚ) ≤ (if e.keywords ≠ [] then (0.05:ℚ) else 0) := by split <;> norm_num
  have hw : (0:ℚ) <
      (if e.companies ≠ [] then (0.4:ℚ) else 0) + (if e.topics ≠ [] then (0.3:ℚ) else 0) +
      (if e.actions ≠ [] then (0.2:ℚ) else 0) + (if e.locations ≠ [] then (0.1:ℚ) else 0) +
      (if e.time_periods ≠ [] then (0.1:ℚ) else 0) +
      (if e.keywords ≠ [] then (0.05:ℚ) else 0) := by
    rcases hne with h | h | h | h | h | h <;> rw [if_pos h] <;> linarith
  have key : ∀ x : ℚ, 0 < x → (if 0 < x then x / x else 0) = 1 := by
    intro x hx
    rw [if_pos hx]
    exact div_self hx.ne'
  simp only [calculate_similarity, bucket_score_diag_all]
  by_cases hcb : e.companies ≠ [] ∧ e.companies ≠ [] ∧ sets_equal e.companies e.companies
  · by_cases htb : e.topics ≠ [] ∧ e.topics ≠ [] ∧ sets_equal e.topics e.topics
    · simp only [if_pos hcb, if_pos htb]
      apply key
      linarith
    · simp only [if_pos hcb, if_neg htb]
      apply key
      linarith
  · by_cases htb : e.topics ≠ [] ∧ e.topics ≠ [] ∧ sets_equal e.topics e.topics
    · simp only [if_neg hcb, if_pos htb]
      apply key
      linarith
    · simp only [if_neg hcb, if_neg htb]
      apply key
      linarith

/-- C7, amended: similarity is always within [0, 1], and self-similarity is 1 when
one of the six WEIGHTED buckets (companies, topics, actions, locations, time_periods,
keywords) is non-empty; an entity set whose only non-empty bucket is numbers has
self-similarity 0, because numbers carries no weight. -/
theorem c7_similarity_bounds_and_diag (e1 e2 : EntitySet) :
    0 ≤ calculate_similarity e1 e2 ∧ calculate_similarity e1 e2 ≤ 1 ∧
    ((e1.companies ≠ [] ∨ e1.topics ≠ [] ∨ e1.actions ≠ [] ∨ e1.locations ≠ [] ∨
      e1.time_periods ≠ [] ∨ e1.keywords ≠ []) → calculate_similarity e1 e1 = 1) :=
  ⟨(similarity_nonneg_le_one e1 e2).1, (similarity_nonneg_le_one e1 e2).2,
    fun h => similarity_diag e1 h⟩

/-- C7, counterexample: the entity set with numbers = ["5"] and every other bucket
empty is a non-empty entity set (extractable from the query "5"), yet its
self-similarity is 0, not 1. -/
theorem c7_counterexample :
    extract_key_entities "5".data =
      { companies := [], locations := [], topics := [], time_periods := [],
        keywords := [], actions := [], numbers := ["5".data] } ∧
    ({ companies := [], locations := [], topics := [], time_periods := [],
       keywords := [], actions := [], numbers := ["5".data] } : EntitySet).numbers ≠ [] ∧
    calculate_similarity
      { companies := [], locations := [], topics := [], time_periods := [],
        keywords := [], actions := [], numbers := ["5".data] }
      { companies := [], locations := [], topics := [], time_periods := [],
        keywords := [], actions := [], numbers := ["5".data] } ≠ 1 := by
  refine ⟨by decide, by decide, ?_⟩
  have h : calculate_similarity
      { companies := [], locations := [], topics := [], time_periods := [],
        keywords := [], actions := [], numbers := ["5".data] }
      { companies := [], locations := [], topics := [], time_periods := [],
        keywords := [], actions := [], numbers := ["5".data] } = 0 := by
    simp [calculate_similarity, bucket_score]
  rw [h]
  norm_num

/-- C7, witness: the amended theorem applied at the entity set of "apple stock",
whose companies bucket is non-empty. -/
theorem c7_witness :
    ((extract_key_entities "apple stock".data).companies ≠ [] ∨
     (extract_key_entities "apple stock".data).topics ≠ [] ∨
     (extract_key_entities "apple stock".data).actions ≠ [] ∨
     (extract_key_entities "apple stock".data).locations ≠ [] ∨
     (extract_key_entities "apple stock".data).time_periods ≠ [] ∨
     (extract_key_entities "apple stock".data).keywords ≠ []) ∧
    calculate_similarity (extract_key_entities "apple stock".data)
      (extract_key_entities "apple stock".data) = 1 :=
  ⟨Or.inl (by decide),
    (c7_similarity_bounds_and_diag (extract_key_entities "apple stock".data)
      (extract_key_entities "apple stock".data)).2.2 (Or.inl (by decide))⟩

/-! ### Store lemmas -/

theorem find_doc_upsert (s : List CacheDoc) (h : Txt) (doc : CacheDoc)
    (hd : doc.query_hash = h) : find_doc (upsert_doc s h doc) h = some doc := by
  induction s with
  | nil => simp [upsert_doc, find_doc, List.find?, hd]
  | cons e es ih =>
    rw [upsert_doc]
    by_cases he : e.query_hash = h
    · rw [if_pos he, find_doc, List.find?_cons_of_pos _ (by simpa using hd)]
    · rw [if_neg he, find_doc, List.find?_cons_of_neg _ (by simpa using he)]
      simpa [find_doc] using ih

theorem cache_response_store (cfg : Config) (store : List CacheDoc) (q i : Txt)
    (R : RVal) (t : ℚ) (hen : cfg.CACHE_ENABLED = true) :
    find_doc (cache_response cfg store q i R t).2 (generate_query_hash q i)
      = some (build_doc cfg q i R t) := by
  unfold cache_response
  rw [if_neg (by simp [hen])]
  cases hfind : find_doc store (generate_query_hash q i) with
  | some old =>
    simp only [hfind]
    exact find_doc_upsert store _ _ rfl
  | none =>
    simp only [hfind]
    rw [find_doc, List.find?_append]
    rw [find_doc] at hfind
    rw [hfind]
    simp [build_doc, List.find?]

/-! ### Branch lemmas of get_cached_response -/

theorem get_exact_hit (cfg : Config) (store : List CacheDoc) (q i : Txt) (now : ℚ)
    (doc : CacheDoc) (hen : cfg.CACHE_ENABLED = true)
    (hf : find_doc store (generate_query_hash q i) = some doc)
    (hv : now - doc.created_at < cfg.CACHE_TTL) :
    get_cached_response cfg store q i now = (some doc.response, store) := by
  unfold get_cached_response
  rw [if_neg (by simp [hen])]
  simp only [hf]
  rw [if_pos hv]

theorem get_exact_expired (cfg : Config) (store : List CacheDoc) (q i : Txt) (now : ℚ)
    (doc : CacheDoc) (hen : cfg.CACHE_ENABLED = true)
    (hf : find_doc store (generate_query_hash q i) = some doc)
    (hx : cfg.CACHE_TTL ≤ now - doc.created_at) :
    get_cached_response cfg store q i now =
      semantic_scan cfg (delete_doc store (generate_query_hash q i)) i
        (extract_key_entities q) now := by
  unfold get_cached_response
  rw [if_neg (by simp [hen])]
  simp only [hf]
  rw [if_neg (by exact not_lt.mpr hx)]

theorem get_no_exact (cfg : Config) (store : List CacheDoc) (q i : Txt) (now : ℚ)
    (hen : cfg.CACHE_ENABLED = true)
    (hf : find_doc store (generate_query_hash q i) = none) :
    get_cached_response cfg store q i now =
      semantic_scan cfg store i (extract_key_entities q) now := by
  unfold get_cached_response
  rw [if_neg (by simp [hen])]
  simp only [hf]

theorem semantic_scan_store (cfg : Config) (store : List CacheDoc) (i : Txt)
    (ent : EntitySet) (now : ℚ) : (semantic_scan cfg store i ent now).2 = store := by
  simp only [semantic_scan]
  split <;> rfl

/-! ### C5: write-then-read round trip through the exact hash -/

/-- C5: after cache_response(q, i, R) succeeds, a get_cached_response(q, i) before TTL
expiry (no intervening write) returns R via the exact-hash match. -/
theorem c5_roundtrip (cfg : Config) (store : List CacheDoc) (q i : Txt) (R : RVal)
    (tw tr : ℚ) (hen : cfg.CACHE_ENABLED = true) (hfresh : tr - tw < cfg.CACHE_TTL) :
    (get_cached_response cfg (cache_response cfg store q i R tw).2 q i tr).1 = some R := by
  have hf := cache_response_store cfg store q i R tw hen
  have hhit := get_exact_hit cfg (cache_response cfg store q i R tw).2 q i tr
    (build_doc cfg q i R tw) hen hf (by simpa [build_doc] using hfresh)
  rw [hhit]
  rfl

/-- C5, witness at a concrete write/read pair. -/
theorem c5_witness :
    ((⟨true, 86400⟩ : Config).CACHE_ENABLED = true ∧ (1:ℚ) - 0 < (⟨true, 86400⟩ : Config).CACHE_TTL) ∧
    (get_cached_response ⟨true, 86400⟩
      (cache_response ⟨true, 86400⟩ [] "AAPL price today".data "price_movement".data
        (RVal.rleaf (RLeaf.lstr "ok".data)) 0).2
      "AAPL price today".data "price_movement".data 1).1 =
      some (RVal.rleaf (RLeaf.lstr "ok".data)) :=
  ⟨⟨rfl, by norm_num⟩,
    c5_roundtrip ⟨true, 86400⟩ [] "AAPL price today".data "price_movement".data
      (RVal.rleaf (RLeaf.lstr "ok".data)) 0 1 rfl (by norm_num)⟩

/-! ### C2: error payloads and cache_response -/

/-- C2, counterexample: cache_response with a response carrying an error key is NOT a
no-op: on an empty store it writes a document (the source has no error check). -/
theorem c2_counterexample :
    has_error_key (RVal.rdict [("error".data, RLeaf.lstr "boom".data)]) = true ∧
    (cache_response ⟨true, 86400⟩ [] "price of AAPL".data "price_movement".data
      (RVal.rdict [("error".data, RLeaf.lstr "boom".data)]) 0).2 =
      [build_doc ⟨true, 86400⟩ "price of AAPL".data "price_movement".data
        (RVal.rdict [("error".data, RLeaf.lstr "boom".data)]) 0] := by
  exact ⟨by decide, rfl⟩

/-- C2, amended: cache_response performs no error check; even for a response that
contains an error key it upserts the document, which is then present in the store
under the query hash with that very response. -/
theorem c2_error_payload_written (cfg : Config) (store : List CacheDoc) (q i : Txt)
    (R : RVal) (t : ℚ) (hen : cfg.CACHE_ENABLED = true) (herr : has_error_key R = true) :
    find_doc (cache_response cfg store q i R t).2 (generate_query_hash q i) =
      some (build_doc cfg q i R t) ∧ (build_doc cfg q i R t).response = R ∧
    has_error_key (build_doc cfg q i R t).response = true :=
  ⟨cache_response_store cfg store q i R t hen, rfl, herr⟩

/-- C2, witness at a concrete error payload. -/
theorem c2_witness :
    ((⟨true, 86400⟩ : Config).CACHE_ENABLED = true ∧
     has_error_key (RVal.rdict [("error".data, RLeaf.lstr "boom".data)]) = true) ∧
    (find_doc (cache_response ⟨true, 86400⟩ [] "oil news".data "company_news".data
        (RVal.rdict [("error".data, RLeaf.lstr "boom".data)]) 7).2
      (generate_query_hash "oil news".data "company_news".data) =
      some (build_doc ⟨true, 86400⟩ "oil news".data "company_news".data
        (RVal.rdict [("error".data, RLeaf.lstr "boom".data)]) 7) ∧
     (build_doc ⟨true, 86400⟩ "oil news".data "company_news".data
        (RVal.rdict [("error".data, RLeaf.lstr "boom".data)]) 7).response =
       RVal.rdict [("error".data, RLeaf.lstr "boom".data)] ∧
     has_error_key (build_doc ⟨true, 86400⟩ "oil news".data "company_news".data
        (RVal.rdict [("error".data, RLeaf.lstr "boom".data)]) 7).response = true) :=
  ⟨⟨rfl, by decide⟩,
    c2_error_payload_written ⟨true, 86400⟩ [] "oil news".data "company_news".data
      (RVal.rdict [("error".data, RLeaf.lstr "boom".data)]) 7 rfl (by decide)⟩

/-! ### C10: get_cached_response never inserts or modifies entries -/

theorem delete_doc_sublist (store : List CacheDoc) (h : Txt) :
    (delete_doc store h).Sublist store :=
  List.eraseP_sublist store

/-- C10: the store after get_cached_response is a sublist of the store before (no
insertion, no modification, annotations are never written back), and it differs only
when the exact-hash entry was found expired, in which case exactly that entry is
deleted. -/
theorem c10_get_frame (cfg : Config) (store : List CacheDoc) (q i : Txt) (now : ℚ) :
    ((get_cached_response cfg store q i now).2).Sublist store ∧
    ((get_cached_response cfg store q i now).2 = store ∨
      (∃ doc, find_doc store (generate_query_hash q i) = some doc ∧
        cfg.CACHE_TTL ≤ now - doc.created_at ∧
        (get_cached_response cfg store q i now).2 =
          delete_doc store (generate_query_hash q i))) := by
  by_cases hen : cfg.CACHE_ENABLED = true
  · cases hfind : find_doc store (generate_query_hash q i) with
    | none =>
      rw [get_no_exact cfg store q i now hen hfind, semantic_scan_store]
      exact ⟨List.Sublist.refl store, Or.inl rfl⟩
    | some doc =>
      by_cases hv : now - doc.created_at < cfg.CACHE_TTL
      · rw [get_exact_hit cfg store q i now doc hen hfind hv]
        exact ⟨List.Sublist.refl store, Or.inl rfl⟩
      · rw [get_exact_expired cfg store q i now doc hen hfind (not_lt.mp hv),
          semantic_scan_store]
        exact ⟨delete_doc_sublist store _,
          Or.inr ⟨doc, rfl, not_lt.mp hv, rfl⟩⟩
  · unfold get_cached_response
    rw [if_pos hen]
    exact ⟨List.Sublist.refl store, Or.inl rfl⟩

/-! ### C4: expiry is decided by the read-time configuration TTL -/

theorem find_doc_delete_none (store : List CacheDoc) (h : Txt)
    (hnd : (store.map CacheDoc.query_hash).Nodup) :
    find_doc (delete_doc store h) h = none := by
  induction store with
  | nil => rfl
  | cons e es ih =>
    by_cases he : e.query_hash = h
    · rw [delete_doc, List.eraseP_cons_of_pos (by simpa using he)]
      rw [find_doc, List.find?_eq_none]
      intro x hx
      have hne : x.query_hash ≠ e.query_hash := by
        intro hcontra
        exact (List.nodup_cons.mp hnd).1 (hcontra ▸ List.mem_map_of_mem CacheDoc.query_hash hx)
      simp [he ▸ hne]
    · rw [delete_doc, List.eraseP_cons_of_neg (by simpa using he)]
      rw [find_doc, List.find?_cons_of_neg _ (by simpa using he)]
      exact ih (List.nodup_cons.mp hnd).2

/-- C4, amended: an exact-hash entry is served or skipped according to
now - created_at compared with the READ-time configuration CACHE_TTL; the cache_ttl
field stored in the entry is never consulted.  A fresh entry is returned with the
store unchanged; an expired one makes the lookup behave exactly as if the entry were
absent, and it is deleted from the store as a side effect. -/
theorem c4_read_time_ttl (cfg : Config) (store : List CacheDoc) (q i : Txt) (now : ℚ)
    (doc : CacheDoc) (hen : cfg.CACHE_ENABLED = true)
    (hf : find_doc store (generate_query_hash q i) = some doc)
    (hnd : (store.map CacheDoc.query_hash).Nodup) :
    (now - doc.created_at < cfg.CACHE_TTL →
      get_cached_response cfg store q i now = (some doc.response, store)) ∧
    (cfg.CACHE_TTL ≤ now - doc.created_at →
      get_cached_response cfg store q i now =
        get_cached_response cfg (delete_doc store (generate_query_hash q i)) q i now ∧
      (get_cached_response cfg store q i now).2 =
        delete_doc store (generate_query_hash q i)) := by
  constructor
  · intro hv
    exact get_exact_hit cfg store q i now doc hen hf hv
  · intro hx
    have h1 := get_exact_expired cfg store q i now doc hen hf hx
    have h2 := get_no_exact cfg (delete_doc store (generate_query_hash q i)) q i now hen
      (find_doc_delete_none store _ hnd)
    refine ⟨by rw [h1, h2], by rw [h1, semantic_scan_store]⟩

/-- C4, counterexample: an entry written under a configuration with CACHE_TTL = 10 at
time 100 carries cache_ttl = 10; at read time 150 (age 50 >= its own cache_ttl) under
a configuration with CACHE_TTL = 100 the entry is nevertheless returned and kept,
refuting expiry by the entry's stored cache_ttl. -/
theorem c4_counterexample :
    (build_doc ⟨true, 10⟩ "AAPL price".data "price_movement".data
        (RVal.rleaf (RLeaf.lstr "ok".data)) 100).cache_ttl ≤
      (150 : ℚ) - (build_doc ⟨true, 10⟩ "AAPL price".data "price_movement".data
        (RVal.rleaf (RLeaf.lstr "ok".data)) 100).created_at ∧
    (get_cached_response ⟨true, 100⟩
        [build_doc ⟨true, 10⟩ "AAPL price".data "price_movement".data
          (RVal.rleaf (RLeaf.lstr "ok".data)) 100]
        "AAPL price".data "price_movement".data 150).1 =
      some (RVal.rleaf (RLeaf.lstr "ok".data)) ∧
    (get_cached_response ⟨true, 100⟩
        [build_doc ⟨true, 10⟩ "AAPL price".data "price_movement".data
          (RVal.rleaf (RLeaf.lstr "ok".data)) 100]
        "AAPL price".data "price_movement".data 150).2 =
      [build_doc ⟨true, 10⟩ "AAPL price".data "price_movement".data
        (RVal.rleaf (RLeaf.lstr "ok".data)) 100] := by
  have hf : find_doc
      [build_doc ⟨true, 10⟩ "AAPL price".data "price_movement".data
        (RVal.rleaf (RLeaf.lstr "ok".data)) 100]
      (generate_query_hash "AAPL price".data "price_movement".data) =
      some (build_doc ⟨true, 10⟩ "AAPL price".data "price_movement".data
        (RVal.rleaf (RLeaf.lstr "ok".data)) 100) := by
    rw [find_doc, List.find?_cons_of_pos _ (by decide)]
  have hv : (150 : ℚ) - (build_doc ⟨true, 10⟩ "AAPL price".data "price_movement".data
      (RVal.rleaf (RLeaf.lstr "ok".data)) 100).created_at <
      (⟨true, 100⟩ : Config).CACHE_TTL := by
    norm_num [build_doc]
  have h := get_exact_hit ⟨true, 100⟩
    [build_doc ⟨true, 10⟩ "AAPL price".data "price_movement".data
      (RVal.rleaf (RLeaf.lstr "ok".data)) 100]
    "AAPL price".data "price_movement".data 150
    (build_doc ⟨true, 10⟩ "AAPL price".data "price_movement".data
      (RVal.rleaf (RLeaf.lstr "ok".data)) 100) rfl hf hv
  refine ⟨by norm_num [build_doc], by rw [h]; rfl, by rw [h]⟩

/-- C4, witness: the amended theorem applied to an expired concrete entry. -/
theorem c4_witness :
    ((⟨true, 50⟩ : Config).CACHE_ENABLED = true ∧
     find_doc [build_doc ⟨true, 10⟩ "AAPL price".data "price_movement".data
         (RVal.rleaf (RLeaf.lstr "ok".data)) 100]
       (generate_query_hash "AAPL price".data "price_movement".data) =
       some (build_doc ⟨true, 10⟩ "AAPL price".data "price_movement".data
         (RVal.rleaf (RLeaf.lstr "ok".data)) 100) ∧
     ([build_doc ⟨true, 10⟩ "AAPL price".data "price_movement".data
         (RVal.rleaf (RLeaf.lstr "ok".data)) 100].map CacheDoc.query_hash).Nodup ∧
     (⟨true, 50⟩ : Config).CACHE_TTL ≤ (160 : ℚ) -
       (build_doc ⟨true, 10⟩ "AAPL price".data "price_movement".data
         (RVal.rleaf (RLeaf.lstr "ok".data)) 100).created_at) ∧
    (get_cached_response ⟨true, 50⟩
        [build_doc ⟨true, 10⟩ "AAPL price".data "price_movement".data
          (RVal.rleaf (RLeaf.lstr "ok".data)) 100]
        "AAPL price".data "price_movement".data 160 =
      get_cached_response ⟨true, 50⟩
        (delete_doc [build_doc ⟨true, 10⟩ "AAPL price".data "price_movement".data
            (RVal.rleaf (RLeaf.lstr "ok".data)) 100]
          (generate_query_hash "AAPL price".data "price_movement".data))
        "AAPL price".data "price_movement".data 160 ∧
     (get_cached_response ⟨true, 50⟩
        [build_doc ⟨true, 10⟩ "AAPL price".data "price_movement".data
          (RVal.rleaf (RLeaf.lstr "ok".data)) 100]
        "AAPL price".data "price_movement".data 160).2 =
      delete_doc [build_doc ⟨true, 10⟩ "AAPL price".data "price_movement".data
          (RVal.rleaf (RLeaf.lstr "ok".data)) 100]
        (generate_query_hash "AAPL price".data "price_movement".data)) := by
  have hf : find_doc
      [build_doc ⟨true, 10⟩ "AAPL price".data "price_movement".data
        (RVal.rleaf (RLeaf.lstr "ok".data)) 100]
      (generate_query_hash "AAPL price".data "price_movement".data) =
      some (build_doc ⟨true, 10⟩ "AAPL price".data "price_movement".data
        (RVal.rleaf (RLeaf.lstr "ok".data)) 100) := by
    rw [find_doc, List.find?_cons_of_pos _ (by decide)]
  have hnd : ([build_doc ⟨true, 10⟩ "AAPL price".data "price_movement".data
      (RVal.rleaf (RLeaf.lstr "ok".data)) 100].map CacheDoc.query_hash).Nodup := by
    simp
  have hx : (⟨true, 50⟩ : Config).CACHE_TTL ≤ (160 : ℚ) -
      (build_doc ⟨true, 10⟩ "AAPL price".data "price_movement".data
        (RVal.rleaf (RLeaf.lstr "ok".data)) 100).created_at := by
    norm_num [build_doc]
  exact ⟨⟨rfl, hf, hnd, hx⟩,
    (c4_read_time_ttl ⟨true, 50⟩ _ "AAPL price".data "price_movement".data 160 _
      rfl hf hnd).2 hx⟩

/-! ### C9: get_cache_stats counts physically present documents -/

theorem cache_response_append (cfg : Config) (s : List CacheDoc) (q i : Txt) (R : RVal)
    (t : ℚ) (hen : cfg.CACHE_ENABLED = true)
    (hnone : find_doc s (generate_query_hash q i) = none) :
    (cache_response cfg s q i R t).2 = s ++ [build_doc cfg q i R t] := by
  unfold cache_response
  rw [if_neg (by simp [hen])]
  simp only [hnone]

/-- Sequence of cache_response calls, each op being (query, intent, response, time). -/
def write_all (cfg : Config) : List (Txt × Txt × RVal × ℚ) → List CacheDoc → List CacheDoc
  | [], s => s
  | (q, i, R, t) :: ops, s => write_all cfg ops (cache_response cfg s q i R t).2

/-- C9, amended: total_entries is the number of PHYSICALLY present documents
(count_documents({})); after a sequence of writes with pairwise distinct semantic
keys, none already present, it equals the number of writes regardless of the write
timestamps, i.e. expired-but-not-yet-deleted entries are counted. -/
theorem c9_total_entries_counts_all (cfg : Config) (ops : List (Txt × Txt × RVal × ℚ))
    (s : List CacheDoc) (hen : cfg.CACHE_ENABLED = true)
    (hfresh : ∀ op ∈ ops, find_doc s (generate_query_hash op.1 op.2.1) = none)
    (hdistinct : ops.Pairwise
      (fun a b => generate_query_hash a.1 a.2.1 ≠ generate_query_hash b.1 b.2.1)) :
    (get_cache_stats cfg (write_all cfg ops s)).total_entries = s.length + ops.length := by
  induction ops generalizing s with
  | nil => simp [write_all, get_cache_stats]
  | cons op ops ih =>
    obtain ⟨q, i, R, t⟩ := op
    rw [write_all]
    rw [cache_response_append cfg s q i R t hen (hfresh _ (List.mem_cons_self _ _))]
    have hpair := List.pairwise_cons.mp hdistinct
    have hfresh2 : ∀ op2 ∈ ops,
        find_doc (s ++ [build_doc cfg q i R t])
          (generate_query_hash op2.1 op2.2.1) = none := by
      intro op2 hmem
      rw [find_doc, List.find?_append]
      have h1 := hfresh op2 (List.mem_cons_of_mem _ hmem)
      rw [find_doc] at h1
      rw [h1]
      have hne : generate_query_hash q i ≠ generate_query_hash op2.1 op2.2.1 :=
        hpair.1 op2 hmem
      simp [List.find?, build_doc, hne]
    have := ih (s ++ [build_doc cfg q i R t]) hfresh2 hpair.2
    rw [this]
    simp [Nat.add_assoc, Nat.add_comm 1 ops.length]

/-- C9, counterexample: one write under CACHE_TTL = 10 at time 0; at time 100 the
entry is expired (not one non-expired entry exists), yet total_entries reports 1. -/
theorem c9_counterexample :
    (get_cache_stats ⟨true, 10⟩
      (cache_response ⟨true, 10⟩ [] "BTC price".data "price_movement".data
        (RVal.rleaf (RLeaf.lstr "ok".data)) 0).2).total_entries = 1 ∧
    ((cache_response ⟨true, 10⟩ [] "BTC price".data "price_movement".data
        (RVal.rleaf (RLeaf.lstr "ok".data)) 0).2.filter
      (fun d => decide ((100:ℚ) - d.created_at < (⟨true, 10⟩ : Config).CACHE_TTL))).length
      = 0 := by
  constructor
  · rfl
  · have hs : (cache_response ⟨true, 10⟩ [] "BTC price".data "price_movement".data
        (RVal.rleaf (RLeaf.lstr "ok".data)) 0).2 =
        [build_doc ⟨true, 10⟩ "BTC price".data "price_movement".data
          (RVal.rleaf (RLeaf.lstr "ok".data)) 0] := rfl
    rw [hs, List.filter_cons_of_neg]
    · rfl
    · simp only [decide_eq_true_eq]
      norm_num [build_doc]

/-- C9, witness: two distinct writes at long-expired timestamps still count as 2. -/
theorem c9_witness :
    ((⟨true, 10⟩ : Config).CACHE_ENABLED = true ∧
     (∀ op ∈ [("apple price".data, "price_movement".data,
         RVal.rleaf (RLeaf.lstr "a".data), (0:ℚ)),
        ("tesla news".data, "company_news".data,
         RVal.rleaf (RLeaf.lstr "b".data), (0:ℚ))],
       find_doc [] (generate_query_hash op.1 op.2.1) = none) ∧
     ([("apple price".data, "price_movement".data,
         RVal.rleaf (RLeaf.lstr "a".data), (0:ℚ)),
       ("tesla news".data, "company_news".data,
        RVal.rleaf (RLeaf.lstr "b".data), (0:ℚ))].Pairwise
       (fun a b => generate_query_hash a.1 a.2.1 ≠ generate_query_hash b.1 b.2.1))) ∧
    (get_cache_stats ⟨true, 10⟩
      (write_all ⟨true, 10⟩
        [("apple price".data, "price_movement".data,
          RVal.rleaf (RLeaf.lstr "a".data), (0:ℚ)),
         ("tesla news".data, "company_news".data,
          RVal.rleaf (RLeaf.lstr "b".data), (0:ℚ))] [])).total_entries = 0 + 2 := by
  have hfresh : ∀ op ∈ [("apple price".data, "price_movement".data,
      RVal.rleaf (RLeaf.lstr "a".data), (0:ℚ)),
     ("tesla news".data, "company_news".data,
      RVal.rleaf (RLeaf.lstr "b".data), (0:ℚ))],
      find_doc [] (generate_query_hash op.1 op.2.1) = none := by
    intro op _
    rfl
  have hdist : ([("apple price".data, "price_movement".data,
      RVal.rleaf (RLeaf.lstr "a".data), (0:ℚ)),
     ("tesla news".data, "company_news".data,
      RVal.rleaf (RLeaf.lstr "b".data), (0:ℚ))].Pairwise
      (fun a b => generate_query_hash a.1 a.2.1 ≠ generate_query_hash b.1 b.2.1)) := by
    refine List.Pairwise.cons ?_
      (List.Pairwise.cons (fun b hb => absurd hb (List.not_mem_nil b)) List.Pairwise.nil)
    intro b hb
    simp only [List.mem_singleton] at hb
    subst hb
    decide
  exact ⟨⟨rfl, hfresh, hdist⟩,
    c9_total_entries_counts_all ⟨true, 10⟩ _ [] rfl hfresh hdist⟩

/-! ### C3: the normalized token stream never contains an uppercase token -/

theorem py_toLower_not_upper (c : Char) : is_upper_char (py_toLower c) = false := by
  rw [py_toLower]
  cases hf : (upper_chars.zip lower_chars).find? (fun p => decide (p.1 = c)) with
  | some p =>
    have hmem := List.mem_of_find?_eq_some hf
    have hall : ∀ x ∈ upper_chars.zip lower_chars, is_upper_char x.2 = false := by decide
    exact hall p hmem
  | none =>
    have hnone := List.find?_eq_none.mp hf
    have hexists : ∀ x ∈ upper_chars,
        ∃ p, p ∈ upper_chars.zip lower_chars ∧ p.1 = x := by decide
    by_contra hcon
    have hc : c ∈ upper_chars := by
      have : is_upper_char c = true := by
        cases h : is_upper_char c
        · exact absurd h hcon
        · rfl
      rw [is_upper_char] at this
      simpa using this
    obtain ⟨p, hp, hp1⟩ := hexists c hc
    have := hnone p hp
    simp [hp1] at this

theorem clean_char_not_upper (c : Char) (h : is_upper_char c = false) :
    is_upper_char (clean_char c) = false := by
  rw [clean_char]
  split
  · exact h
  · decide

theorem splitWS_aux_chars (s : List Char) : ∀ (acc : List Char) (w : Txt),
    w ∈ splitWS_aux s acc → ∀ c ∈ w, c ∈ s ∨ c ∈ acc := by
  induction s with
  | nil =>
    intro acc w hw c hc
    rw [splitWS_aux] at hw
    split at hw
    · simp at hw
    · simp only [List.mem_singleton] at hw
      subst hw
      exact Or.inr (List.mem_reverse.mp hc)
  | cons x xs ih =>
    intro acc w hw c hc
    rw [splitWS_aux] at hw
    split at hw
    · split at hw
      · rcases ih [] w hw c hc with h | h
        · exact Or.inl (List.mem_cons_of_mem x h)
        · simp at h
      · rcases List.mem_cons.mp hw with h | h
        · subst h
          exact Or.inr (List.mem_reverse.mp hc)
        · rcases ih [] w h c hc with h2 | h2
          · exact Or.inl (List.mem_cons_of_mem x h2)
          · simp at h2
    · rcases ih (x :: acc) w hw c hc with h | h
      · exact Or.inl (List.mem_cons_of_mem x h)
      · rcases List.mem_cons.mp h with h2 | h2
        · subst h2
          exact Or.inl (List.mem_cons_self _ _)
        · exact Or.inr h2

theorem splitWS_chars (s : Txt) (w : Txt) (hw : w ∈ splitWS s) (c : Char) (hc : c ∈ w) :
    c ∈ s := by
  rcases splitWS_aux_chars s [] w hw c hc with h | h
  · exact h
  · simp at h

theorem join_sep_cons2 (sep : Txt) (w w2 : Txt) (ws : List Txt) :
    join_sep sep (w :: w2 :: ws) = w ++ sep ++ join_sep sep (w2 :: ws) := rfl

theorem join_sep_chars (sep : Txt) (ls : List Txt) (c : Char)
    (hc : c ∈ join_sep sep ls) : c ∈ sep ∨ ∃ w ∈ ls, c ∈ w := by
  induction ls with
  | nil => simp [join_sep] at hc
  | cons w ws ih =>
    cases ws with
    | nil =>
      exact Or.inr ⟨w, List.mem_singleton.mpr rfl, by simpa [join_sep] using hc⟩
    | cons w2 ws2 =>
      rw [join_sep_cons2] at hc
      rcases List.mem_append.mp hc with h | h
      · rcases List.mem_append.mp h with h2 | h2
        · exact Or.inr ⟨w, List.mem_cons_self _ _, h2⟩
        · exact Or.inl h2
      · rcases ih h with h2 | ⟨w3, hw3, hc3⟩
        · exact Or.inl h2
        · exact Or.inr ⟨w3, List.mem_cons_of_mem _ hw3, hc3⟩

theorem normalize_words_chars_not_upper (q : Txt) (w : Txt) (hw : w ∈ normalize_words q)
    (c : Char) (hc : c ∈ w) : is_upper_char c = false := by
  have hw2 : w ∈ splitWS ((q.map py_toLower).map clean_char) :=
    List.mem_of_mem_filter hw
  have hcs := splitWS_chars _ w hw2 c hc
  rcases List.mem_map.mp hcs with ⟨y, hy, hyc⟩
  rcases List.mem_map.mp hy with ⟨x, _, hxy⟩
  subst hxy
  subst hyc
  exact clean_char_not_upper _ (py_toLower_not_upper x)

theorem normalized_stream_chars_not_upper (q : Txt) (w : Txt)
    (hw : w ∈ splitWS (normalize_query q)) (c : Char) (hc : c ∈ w) :
    is_upper_char c = false := by
  have hcs := splitWS_chars _ w hw c hc
  rw [normalize_query] at hcs
  rcases join_sep_chars _ _ _ hcs with h | ⟨w2, hw2, hc2⟩
  · simp only [List.mem_singleton] at h
    subst h
    decide
  · exact normalize_words_chars_not_upper q w2 hw2 c hc2

theorem py_isupper_eq_false (w : Txt) (h : ∀ c ∈ w, is_upper_char c = false) :
    py_isupper w = false := by
  rw [py_isupper]
  cases hall : w.all (fun c => !is_lower_char c) with
  | false => simp
  | true =>
    cases hany : w.any (fun c => is_upper_char c || is_lower_char c) with
    | false => simp
    | true =>
      obtain ⟨c, hc, hcased⟩ := List.any_eq_true.mp hany
      rcases Bool.or_eq_true_iff.mp hcased with hup | hlo
      · rw [h c hc] at hup
        exact absurd hup (by simp)
      · have := List.all_eq_true.mp hall c hc
        rw [hlo] at this
        exact absurd this (by simp)

/-- C3 (code-bug evidence): normalization lowercases the query before entity
extraction, so the normalized token stream never contains a token satisfying the
isupper ticker test; the documented all-caps ticker branch is unreachable.  On the
failing input "AAPL price" the ticker lands in keywords as "aapl" and the companies
bucket stays empty. -/
theorem c3_ticker_branch_dead :
    (∀ (q : Txt), ∀ t ∈ splitWS (normalize_query q), py_isupper t = false) ∧
    splitWS (normalize_query "AAPL price".data) = ["aapl".data, "price".data] ∧
    (extract_key_entities "AAPL price".data).companies = [] ∧
    "aapl".data ∈ (extract_key_entities "AAPL price".data).keywords := by
  refine ⟨?_, by decide, by decide, by decide⟩
  intro q t ht
  exact py_isupper_eq_false t (fun c hc => normalized_stream_chars_not_upper q t ht c hc)

/-- C3, witness: the universal part applied to the token "aapl" of "AAPL price". -/
theorem c3_witness :
    ("aapl".data ∈ splitWS (normalize_query "AAPL price".data)) ∧
    py_isupper "aapl".data = false :=
  ⟨by decide, c3_ticker_branch_dead.1 "AAPL price".data "aapl".data (by decide)⟩

/-! ### C8: one first-pass bucket per token occurrence; topics is a separate pass -/

/-- Total size of the six buckets filled by the first classification loop. -/
def six_len (e : EntitySet) : Nat :=
  e.companies.length + e.time_periods.length + e.locations.length +
  e.numbers.length + e.actions.length + e.keywords.length

theorem pass1_step_six_len (e : EntitySet) (w : Txt) :
    six_len (pass1_step e w) = six_len e + 1 := by
  rw [pass1_step]
  split_ifs <;> simp [six_len] <;> omega

theorem pass1_step_topics (e : EntitySet) (w : Txt) :
    (pass1_step e w).topics = e.topics := by
  rw [pass1_step]
  split_ifs <;> rfl

theorem pass1_fold_six_len (ws : List Txt) : ∀ e : EntitySet,
    six_len (ws.foldl pass1_step e) = six_len e + ws.length := by
  induction ws with
  | nil => intro e; simp
  | cons w ws ih =>
    intro e
    rw [List.foldl_cons, ih (pass1_step e w), pass1_step_six_len]
    simp only [List.length_cons]
    omega

theorem pass1_fold_topics (ws : List Txt) : ∀ e : EntitySet,
    (ws.foldl pass1_step e).topics = e.topics := by
  induction ws with
  | nil => intro e; rfl
  | cons w ws ih =>
    intro e
    rw [List.foldl_cons, ih (pass1_step e w), pass1_step_topics]

/-- C8, amended: the first pass assigns every token occurrence to exactly one of the
six buckets companies, time_periods, locations, numbers, actions, keywords (their
sizes sum to the token count); the topics bucket is produced by the two separate
topic passes over the same tokens and may therefore repeat tokens already placed in
other buckets, and buckets may contain duplicates. -/
theorem c8_first_pass_partition (q : Txt) :
    six_len (extract_key_entities q) = (splitWS (normalize_query q)).length ∧
    (extract_key_entities q).topics =
      (splitWS (normalize_query q)).filterMap synonym_topic ++
        topics_of_words (splitWS (normalize_query q)) := by
  constructor
  · have h := pass1_fold_six_len (splitWS (normalize_query q)) emptyEntities
    simp only [extract_key_entities, six_len] at h ⊢
    simpa [emptyEntities] using h
  · have h := pass1_fold_topics (splitWS (normalize_query q)) emptyEntities
    simp only [extract_key_entities]
    rw [h]
    rfl

/-- C8, counterexample: for "price price" the token "price" is placed in keywords AND
contributes to topics, and both buckets contain it twice, refuting the
exactly-one-bucket and no-duplicates parts of the claim. -/
theorem c8_counterexample :
    (extract_key_entities "price price".data).keywords = ["price".data, "price".data] ∧
    (extract_key_entities "price price".data).topics = ["price".data, "price".data] ∧
    ¬ (extract_key_entities "price price".data).keywords.Nodup := by
  refine ⟨by decide, by decide, by decide⟩

/-! ### C1: semantic hit for "AAPL stock price today" against the cached
"what is the price of AAPL stock" -/

theorem semantic_scan_singleton_hit (cfg : Config) (d : CacheDoc) (i : Txt)
    (ent : EntitySet) (now : ℚ) (fs : List (Txt × RLeaf)) (sc : ℚ)
    (hint : d.intent = i) (hwin : now - cfg.CACHE_TTL ≤ d.created_at)
    (hresp : d.response = RVal.rdict fs)
    (hsc : calculate_similarity ent d.entities = sc)
    (hge : similarity_threshold ≤ sc) (hpos : 0 < sc) :
    semantic_scan cfg [d] i ent now =
      (some (RVal.rdict (dict_set (dict_set (dict_set fs
        "cached".data (RLeaf.lbool true))
        "cache_similarity".data (RLeaf.lnum sc))
        "original_query".data (RLeaf.lstr d.original_query))), [d]) := by
  have hpd : (decide (d.intent = i) && decide (now - cfg.CACHE_TTL ≤ d.created_at))
      = true := by
    rw [Bool.and_eq_true]
    exact ⟨decide_eq_true hint, decide_eq_true hwin⟩
  have hbest : List.foldl
      (fun (acc : Option CacheDoc × ℚ) dd =>
        if acc.2 < calculate_similarity ent dd.entities ∧
            similarity_threshold ≤ calculate_similarity ent dd.entities then
          (some dd, calculate_similarity ent dd.entities)
        else acc)
      ((none : Option CacheDoc), (0 : ℚ)) [d] = (some d, sc) := by
    simp only [List.foldl_cons, List.foldl_nil, hsc]
    rw [if_pos ⟨hpos, hge⟩]
  simp only [semantic_scan]
  rw [show List.filter
      (fun dd => decide (dd.intent = i) && decide (now - cfg.CACHE_TTL ≤ dd.created_at))
      [d] = [d] from by simp only [List.filter_cons, List.filter_nil, hpd, if_true]]
  rw [hbest]
  simp [hresp]

theorem c1_similarity_value :
    calculate_similarity (extract_key_entities "AAPL stock price today".data)
      (extract_key_entities "what is the price of AAPL stock".data) = 4/5 := by
  have h1 : bucket_score
      (extract_key_entities "AAPL stock price today".data).companies
      (extract_key_entities "what is the price of AAPL stock".data).companies 0.4 =
      (0, 0) := by
    rw [bucket_score, if_neg (by decide)]
  have h2 : bucket_score
      (extract_key_entities "AAPL stock price today".data).topics
      (extract_key_entities "what is the price of AAPL stock".data).topics 0.3 =
      (0.3, 0.3) := by
    rw [bucket_score, if_pos (by decide), if_pos (by decide),
      show inter_card (extract_key_entities "AAPL stock price today".data).topics
        (extract_key_entities "what is the price of AAPL stock".data).topics = 3 from
        by decide,
      show union_card (extract_key_entities "AAPL stock price today".data).topics
        (extract_key_entities "what is the price of AAPL stock".data).topics = 3 from
        by decide]
    norm_num
  have h3 : bucket_score
      (extract_key_entities "AAPL stock price today".data).actions
      (extract_key_entities "what is the price of AAPL stock".data).actions 0.2 =
      (0, 0) := by
    rw [bucket_score, if_neg (by decide)]
  have h4 : bucket_score
      (extract_key_entities "AAPL stock price today".data).locations
      (extract_key_entities "what is the price of AAPL stock".data).locations 0.1 =
      (0, 0) := by
    rw [bucket_score, if_neg (by decide)]
  have h5 : bucket_score
      (extract_key_entities "AAPL stock price today".data).time_periods
      (extract_key_entities "what is the price of AAPL stock".data).time_periods 0.1 =
      (0, 0.1) := by
    rw [bucket_score, if_pos (by decide), if_pos (by decide),
      show inter_card (extract_key_entities "AAPL stock price today".data).time_periods
        (extract_key_entities "what is the price of AAPL stock".data).time_periods = 0
        from by decide,
      show union_card (extract_key_entities "AAPL stock price today".data).time_periods
        (extract_key_entities "what is the price of AAPL stock".data).time_periods = 1
        from by decide]
    norm_num
  have h6 : bucket_score
      (extract_key_entities "AAPL stock price today".data).keywords
      (extract_key_entities "what is the price of AAPL stock".data).keywords 0.05 =
      (0.05, 0.05) := by
    rw [bucket_score, if_pos (by decide), if_pos (by decide),
      show inter_card (extract_key_entities "AAPL stock price today".data).keywords
        (extract_key_entities "what is the price of AAPL stock".data).keywords = 3 from
        by decide,
      show union_card (extract_key_entities "AAPL stock price today".data).keywords
        (extract_key_entities "what is the price of AAPL stock".data).keywords = 3 from
        by decide]
    norm_num
  have hcb : ¬((extract_key_entities "AAPL stock price today".data).companies ≠ [] ∧
      (extract_key_entities "what is the price of AAPL stock".data).companies ≠ [] ∧
      sets_equal (extract_key_entities "AAPL stock price today".data).companies
        (extract_key_entities "what is the price of AAPL stock".data).companies) := by
    decide
  have htb : (extract_key_entities "AAPL stock price today".data).topics ≠ [] ∧
      (extract_key_entities "what is the price of AAPL stock".data).topics ≠ [] ∧
      sets_equal (extract_key_entities "AAPL stock price today".data).topics
        (extract_key_entities "what is the price of AAPL stock".data).topics := by
    decide
  simp only [calculate_similarity, h1, h2, h3, h4, h5, h6, if_neg hcb, if_pos htb]
  norm_num

/-- C1: with the response for "what is the price of AAPL stock" cached under intent
price_movement and not expired, get_cached_response("AAPL stock price today",
"price_movement") misses the exact hash, scores 4/5 >= 0.6 against the stored
entities, and returns the cached response annotated with cached=true,
cache_similarity = 4/5 and original_query = the stored original text. -/
theorem c1_semantic_hit (cfg : Config) (fs : List (Txt × RLeaf)) (tw tr : ℚ)
    (hen : cfg.CACHE_ENABLED = true) (hfresh : tr - tw < cfg.CACHE_TTL) :
    calculate_similarity (extract_key_entities "AAPL stock price today".data)
      (extract_key_entities "what is the price of AAPL stock".data) = 4/5 ∧
    similarity_threshold ≤
      calculate_similarity (extract_key_entities "AAPL stock price today".data)
        (extract_key_entities "what is the price of AAPL stock".data) ∧
    (get_cached_response cfg
      (cache_response cfg [] "what is the price of AAPL stock".data
        "price_movement".data (RVal.rdict fs) tw).2
      "AAPL stock price today".data "price_movement".data tr).1 =
      some (RVal.rdict (dict_set (dict_set (dict_set fs
        "cached".data (RLeaf.lbool true))
        "cache_similarity".data (RLeaf.lnum (4/5)))
        "original_query".data
        (RLeaf.lstr "what is the price of AAPL stock".data))) := by
  refine ⟨c1_similarity_value, ?_, ?_⟩
  · rw [c1_similarity_value]
    norm_num [similarity_threshold]
  · have hs1 := cache_response_append cfg [] "what is the price of AAPL stock".data
      "price_movement".data (RVal.rdict fs) tw hen rfl
    rw [hs1, List.nil_append]
    have hmiss : find_doc
        [build_doc cfg "what is the price of AAPL stock".data "price_movement".data
          (RVal.rdict fs) tw]
        (generate_query_hash "AAPL stock price today".data "price_movement".data) =
        none := by
      rw [find_doc, List.find?_cons_of_neg, List.find?_nil]
      simp only [build_doc, decide_eq_true_eq]
      decide
    rw [get_no_exact cfg _ "AAPL stock price today".data "price_movement".data tr
      hen hmiss]
    rw [semantic_scan_singleton_hit cfg
      (build_doc cfg "what is the price of AAPL stock".data "price_movement".data
        (RVal.rdict fs) tw)
      "price_movement".data
      (extract_key_entities "AAPL stock price today".data) tr fs (4/5)
      rfl (by simp only [build_doc]; linarith) rfl c1_similarity_value
      (by norm_num [similarity_threshold]) (by norm_num)]
    rfl

/-- C1, witness: the semantic hit at a concrete configuration and times. -/
theorem c1_witness :
    ((⟨true, 86400⟩ : Config).CACHE_ENABLED = true ∧
     (5 : ℚ) - 0 < (⟨true, 86400⟩ : Config).CACHE_TTL) ∧
    (calculate_similarity (extract_key_entities "AAPL stock price today".data)
      (extract_key_entities "what is the price of AAPL stock".data) = 4/5 ∧
     similarity_threshold ≤
       calculate_similarity (extract_key_entities "AAPL stock price today".data)
         (extract_key_entities "what is the price of AAPL stock".data) ∧
     (get_cached_response ⟨true, 86400⟩
       (cache_response ⟨true, 86400⟩ [] "what is the price of AAPL stock".data
         "price_movement".data (RVal.rdict []) 0).2
       "AAPL stock price today".data "price_movement".data 5).1 =
       some (RVal.rdict (dict_set (dict_set (dict_set []
         "cached".data (RLeaf.lbool true))
         "cache_similarity".data (RLeaf.lnum (4/5)))
         "original_query".data
         (RLeaf.lstr "what is the price of AAPL stock".data)))) :=
  ⟨⟨rfl, by norm_num⟩, c1_semantic_hit ⟨true, 86400⟩ [] 0 5 rfl (by norm_num)⟩

/-! ### C6: the semantic key determines the intent -/

theorem clean_char_ne_colon (c : Char) : clean_char c ≠ ':' := by
  rw [clean_char]
  split
  · rename_i hcond
    intro hc
    subst hc
    simp [is_word_char, is_alpha_char, is_upper_char, is_lower_char, is_digit_char,
      is_space_char, lower_chars, upper_chars, digit_chars, space_chars] at hcond
  · decide

theorem py_toLower_ne_colon (c : Char) (hc : c ≠ ':') : py_toLower c ≠ ':' := by
  rw [py_toLower]
  cases hf : (upper_chars.zip lower_chars).find? (fun p => decide (p.1 = c)) with
  | some p =>
    have hmem := List.mem_of_find?_eq_some hf
    have hall : ∀ x ∈ upper_chars.zip lower_chars, x.2 ≠ ':' := by decide
    exact hall p hmem
  | none => exact hc

theorem normalize_words_no_colon (q : Txt) (w : Txt) (hw : w ∈ normalize_words q) :
    ':' ∉ w := by
  intro hc
  have hw2 : w ∈ splitWS ((q.map py_toLower).map clean_char) :=
    List.mem_of_mem_filter hw
  have hcs := splitWS_chars _ w hw2 ':' hc
  rcases List.mem_map.mp hcs with ⟨y, _, hyc⟩
  exact clean_char_ne_colon y hyc

theorem normalize_no_colon (q : Txt) : ':' ∉ normalize_query q := by
  intro hc
  rw [normalize_query] at hc
  rcases join_sep_chars _ _ _ hc with h | ⟨w, hw, hcw⟩
  · simp at h
  · exact normalize_words_no_colon q w hw hcw

theorem stream_word_no_colon (q : Txt) (w : Txt) (hw : w ∈ splitWS (normalize_query q)) :
    ':' ∉ w :=
  fun hc => normalize_no_colon q (splitWS_chars _ w hw ':' hc)

theorem pass1_step_companies (e : EntitySet) (w : Txt) :
    (pass1_step e w).companies = e.companies ∨
    (pass1_step e w).companies = e.companies ++ [w] ∨
    (pass1_step e w).companies = e.companies ++ [w.map py_toLower] := by
  rw [pass1_step]
  split_ifs <;> simp

theorem pass1_step_locations (e : EntitySet) (w : Txt) :
    (pass1_step e w).locations = e.locations ∨
    (pass1_step e w).locations = e.locations ++ [w] := by
  rw [pass1_step]
  split_ifs <;> simp

theorem pass1_fold_mem (ws : List Txt) : ∀ (e : EntitySet) (x : Txt),
    (x ∈ (ws.foldl pass1_step e).companies →
      x ∈ e.companies ∨ ∃ w ∈ ws, x = w ∨ x = w.map py_toLower) ∧
    (x ∈ (ws.foldl pass1_step e).locations → x ∈ e.locations ∨ x ∈ ws) := by
  induction ws with
  | nil =>
    intro e x
    exact ⟨fun h => Or.inl h, fun h => Or.inl h⟩
  | cons w ws ih =>
    intro e x
    rw [List.foldl_cons]
    constructor
    · intro h
      rcases (ih (pass1_step e w) x).1 h with h2 | ⟨w2, hw2, hx⟩
      · rcases pass1_step_companies e w with hc | hc | hc <;> rw [hc] at h2
        · exact Or.inl h2
        · rcases List.mem_append.mp h2 with h3 | h3
          · exact Or.inl h3
          · exact Or.inr ⟨w, List.mem_cons_self _ _, Or.inl (List.mem_singleton.mp h3)⟩
        · rcases List.mem_append.mp h2 with h3 | h3
          · exact Or.inl h3
          · exact Or.inr ⟨w, List.mem_cons_self _ _, Or.inr (List.mem_singleton.mp h3)⟩
      · exact Or.inr ⟨w2, List.mem_cons_of_mem _ hw2, hx⟩
    · intro h
      rcases (ih (pass1_step e w) x).2 h with h2 | h2
      · rcases pass1_step_locations e w with hc | hc <;> rw [hc] at h2
        · exact Or.inl h2
        · rcases List.mem_append.mp h2 with h3 | h3
          · exact Or.inl h3
          · rw [List.mem_singleton.mp h3]
            exact Or.inr (List.mem_cons_self _ _)
      · exact Or.inr (List.mem_cons_of_mem _ h2)

theorem extract_companies_no_colon (q : Txt) (x : Txt)
    (hx : x ∈ (extract_key_entities q).companies) : ':' ∉ x := by
  have hx2 : x ∈
      ((splitWS (normalize_query q)).foldl pass1_step emptyEntities).companies := by
    simpa [extract_key_entities] using hx
  rcases (pass1_fold_mem (splitWS (normalize_query q)) emptyEntities x).1 hx2 with
    h | ⟨w, hw, hxw | hxw⟩
  · simp [emptyEntities] at h
  · rw [hxw]
    exact stream_word_no_colon q w hw
  · rw [hxw]
    intro hc
    rcases List.mem_map.mp hc with ⟨y, hy, hyc⟩
    exact py_toLower_ne_colon y (fun hcy => stream_word_no_colon q w hw (hcy ▸ hy)) hyc

theorem extract_locations_no_colon (q : Txt) (x : Txt)
    (hx : x ∈ (extract_key_entities q).locations) : ':' ∉ x := by
  have hx2 : x ∈
      ((splitWS (normalize_query q)).foldl pass1_step emptyEntities).locations := by
    simpa [extract_key_entities] using hx
  rcases (pass1_fold_mem (splitWS (normalize_query q)) emptyEntities x).2 hx2 with h | h
  · simp [emptyEntities] at h
  · exact stream_word_no_colon q x h

theorem extract_topics_names (q : Txt) (x : Txt)
    (hx : x ∈ (extract_key_entities q).topics) :
    x ∈ financial_synonyms.map Prod.fst ∨ x ∈ financial_topics.map Prod.fst := by
  have htop : (extract_key_entities q).topics =
      (splitWS (normalize_query q)).filterMap synonym_topic ++
        topics_of_words (splitWS (normalize_query q)) := (c8_first_pass_partition q).2
  rw [htop] at hx
  rcases List.mem_append.mp hx with h | h
  · rcases List.mem_filterMap.mp h with ⟨w, _, hw2⟩
    rw [synonym_topic] at hw2
    cases hf : financial_synonyms.find? (fun p => decide (w ∈ p.2 ∨ w = p.1)) with
    | some p =>
      rw [hf] at hw2
      have hx2 : p.1 = x := by simpa using hw2
      exact Or.inl (hx2 ▸ List.mem_map_of_mem Prod.fst (List.mem_of_find?_eq_some hf))
    | none =>
      rw [hf] at hw2
      simp at hw2
  · unfold topics_of_words at h
    rcases List.mem_filterMap.mp h with ⟨p, hpmem, hpeq⟩
    split_ifs at hpeq
    have hx2 : p.1 = x := by simpa using hpeq
    exact Or.inr (hx2 ▸ List.mem_map_of_mem Prod.fst hpmem)

theorem extract_topics_no_colon (q : Txt) (x : Txt)
    (hx : x ∈ (extract_key_entities q).topics) : ':' ∉ x := by
  have hnames : ∀ y ∈ financial_synonyms.map Prod.fst, ':' ∉ y := by decide
  have hnames2 : ∀ y ∈ financial_topics.map Prod.fst, ':' ∉ y := by decide
  rcases extract_topics_names q x hx with h | h
  · exact hnames x h
  · exact hnames2 x h

theorem sorted_insert_mem (x y : Txt) (l : List Txt) :
    y ∈ sorted_insert x l ↔ y = x ∨ y ∈ l := by
  induction l with
  | nil => simp [sorted_insert]
  | cons z zs ih =>
    rw [sorted_insert]
    split
    · simp [List.mem_cons]
    · simp only [List.mem_cons, ih]
      tauto

theorem py_sorted_mem (l : List Txt) (y : Txt) : y ∈ py_sorted l ↔ y ∈ l := by
  induction l with
  | nil => simp [py_sorted]
  | cons x xs ih =>
    rw [py_sorted, sorted_insert_mem]
    simp [ih]

theorem join_no_colon (sep : Txt) (hsep : ':' ∉ sep) (ls : List Txt)
    (h : ∀ w ∈ ls, ':' ∉ w) : ':' ∉ join_sep sep ls := by
  intro hc
  rcases join_sep_chars sep ls ':' hc with h2 | ⟨w, hw, hcw⟩
  · exact hsep h2
  · exact h w hw hcw

theorem colon_peel : ∀ (a b u v : Txt), ':' ∉ a → ':' ∉ b →
    a ++ ':' :: u = b ++ ':' :: v → a = b ∧ u = v := by
  intro a
  induction a with
  | nil =>
    intro b u v _ hb h
    cases b with
    | nil => simpa using h
    | cons y ys =>
      simp only [List.nil_append, List.cons_append, List.cons.injEq] at h
      have : ':' ∈ y :: ys := by
        rw [h.1]
        exact List.mem_cons_self y ys
      exact absurd this hb
  | cons x xs ih =>
    intro b u v ha hb h
    cases b with
    | nil =>
      simp only [List.cons_append, List.nil_append, List.cons.injEq] at h
      have : ':' ∈ x :: xs := by
        rw [← h.1]
        exact List.mem_cons_self x xs
      exact absurd this ha
    | cons y ys =>
      simp only [List.cons_append, List.cons.injEq] at h
      obtain ⟨hxy, h2⟩ := h
      obtain ⟨h3, h4⟩ := ih ys u v (fun hc => ha (List.mem_cons_of_mem x hc))
        (fun hc => hb (List.mem_cons_of_mem y hc)) h2
      exact ⟨by rw [hxy, h3], h4⟩

theorem generate_semantic_key_intent_inj (q1 i1 q2 i2 : Txt)
    (h : generate_semantic_key q1 i1 = generate_semantic_key q2 i2) : i1 = i2 := by
  have fn1 := normalize_no_colon q1
  have fn2 := normalize_no_colon q2
  have fc1 : ':' ∉ join_sep ['|'] (py_sorted (extract_key_entities q1).companies) :=
    join_no_colon _ (by decide) _
      (fun w hw => extract_companies_no_colon q1 w ((py_sorted_mem _ w).mp hw))
  have fc2 : ':' ∉ join_sep ['|'] (py_sorted (extract_key_entities q2).companies) :=
    join_no_colon _ (by decide) _
      (fun w hw => extract_companies_no_colon q2 w ((py_sorted_mem _ w).mp hw))
  have ft1 : ':' ∉ join_sep ['|'] (py_sorted (extract_key_entities q1).topics) :=
    join_no_colon _ (by decide) _
      (fun w hw => extract_topics_no_colon q1 w ((py_sorted_mem _ w).mp hw))
  have ft2 : ':' ∉ join_sep ['|'] (py_sorted (extract_key_entities q2).topics) :=
    join_no_colon _ (by decide) _
      (fun w hw => extract_topics_no_colon q2 w ((py_sorted_mem _ w).mp hw))
  have fl1 : ':' ∉ join_sep ['|'] (py_sorted (extract_key_entities q1).locations) :=
    join_no_colon _ (by decide) _
      (fun w hw => extract_locations_no_colon q1 w ((py_sorted_mem _ w).mp hw))
  have fl2 : ':' ∉ join_sep ['|'] (py_sorted (extract_key_entities q2).locations) :=
    join_no_colon _ (by decide) _
      (fun w hw => extract_locations_no_colon q2 w ((py_sorted_mem _ w).mp hw))
  have h2 : i1 ++ sep2 ++ (normalize_query q1 ++ sep2 ++
      (join_sep ['|'] (py_sorted (extract_key_entities q1).companies) ++ sep2 ++
        (join_sep ['|'] (py_sorted (extract_key_entities q1).topics) ++ sep2 ++
          join_sep ['|'] (py_sorted (extract_key_entities q1).locations)))) =
      i2 ++ sep2 ++ (normalize_query q2 ++ sep2 ++
      (join_sep ['|'] (py_sorted (extract_key_entities q2).companies) ++ sep2 ++
        (join_sep ['|'] (py_sorted (extract_key_entities q2).topics) ++ sep2 ++
          join_sep ['|'] (py_sorted (extract_key_entities q2).locations)))) := h
  have h3 := congrArg List.reverse h2
  simp only [List.reverse_append, List.append_assoc,
    show sep2.reverse = sep2 from rfl] at h3
  obtain ⟨_, h4⟩ := colon_peel _ _ _ _
    (fun hc => fl1 (List.mem_reverse.mp hc)) (fun hc => fl2 (List.mem_reverse.mp hc)) h3
  injection h4 with _ h5
  obtain ⟨_, h6⟩ := colon_peel _ _ _ _
    (fun hc => ft1 (List.mem_reverse.mp hc)) (fun hc => ft2 (List.mem_reverse.mp hc)) h5
  injection h6 with _ h7
  obtain ⟨_, h8⟩ := colon_peel _ _ _ _
    (fun hc => fc1 (List.mem_reverse.mp hc)) (fun hc => fc2 (List.mem_reverse.mp hc)) h7
  injection h8 with _ h9
  obtain ⟨_, h10⟩ := colon_peel _ _ _ _
    (fun hc => fn1 (List.mem_reverse.mp hc)) (fun hc => fn2 (List.mem_reverse.mp hc)) h9
  injection h10 with _ h11
  exact List.reverse_injective h11

theorem semantic_scan_no_candidates (cfg : Config) (store : List CacheDoc) (i : Txt)
    (ent : EntitySet) (now : ℚ)
    (hf : store.filter
      (fun d => decide (d.intent = i) && decide (now - cfg.CACHE_TTL ≤ d.created_at))
      = []) :
    semantic_scan cfg store i ent now = (none, store) := by
  simp only [semantic_scan, hf, List.foldl_nil]

/-- C6: the cache is intent-partitioned.  Semantic keys of the same text under
different intents differ, and a lookup under intent i returns nothing from a store
whose entries were all written under a different intent j: the exact-hash branch
cannot match (the key determines the intent) and the semantic scan filters on the
stored intent. -/
theorem c6_intent_partition (cfg : Config) (store : List CacheDoc) (q i j : Txt)
    (now : ℚ) (hij : i ≠ j)
    (hstore : ∀ d ∈ store, d.intent = j ∧
      d.query_hash = generate_query_hash d.original_query j) :
    generate_semantic_key q i ≠ generate_semantic_key q j ∧
    (get_cached_response cfg store q i now).1 = none := by
  constructor
  · intro hk
    exact hij (generate_semantic_key_intent_inj q i q j hk)
  · by_cases hen : cfg.CACHE_ENABLED = true
    · have hmiss : find_doc store (generate_query_hash q i) = none := by
        rw [find_doc, List.find?_eq_none]
        intro d hd
        simp only [decide_eq_true_eq]
        intro hdq
        have hj := (hstore d hd).2
        rw [hj] at hdq
        exact hij (generate_semantic_key_intent_inj d.original_query j q i hdq).symm
      rw [get_no_exact cfg store q i now hen hmiss]
      have hfil : store.filter
          (fun d => decide (d.intent = i) && decide (now - cfg.CACHE_TTL ≤ d.created_at))
          = [] := by
        rw [List.filter_eq_nil_iff]
        intro d hd
        simp only [Bool.and_eq_true, decide_eq_true_eq, not_and]
        intro hdi _
        rw [(hstore d hd).1] at hdi
        exact hij hdi.symm
      rw [semantic_scan_no_candidates cfg store i (extract_key_entities q) now hfil]
    · unfold get_cached_response
      rw [if_pos hen]

/-- C6, witness: a store holding one entry written under company_news yields no hit
for the identical text under price_movement. -/
theorem c6_witness :
    ("price_movement".data ≠ "company_news".data ∧
     (∀ d ∈ [build_doc ⟨true, 86400⟩ "AAPL".data "company_news".data
         (RVal.rleaf (RLeaf.lstr "r".data)) 0],
       d.intent = "company_news".data ∧
       d.query_hash = generate_query_hash d.original_query "company_news".data)) ∧
    (generate_semantic_key "AAPL".data "price_movement".data ≠
       generate_semantic_key "AAPL".data "company_news".data ∧
     (get_cached_response ⟨true, 86400⟩
       [build_doc ⟨true, 86400⟩ "AAPL".data "company_news".data
         (RVal.rleaf (RLeaf.lstr "r".data)) 0]
       "AAPL".data "price_movement".data 1).1 = none) := by
  have hstore : ∀ d ∈ [build_doc ⟨true, 86400⟩ "AAPL".data "company_news".data
      (RVal.rleaf (RLeaf.lstr "r".data)) 0],
      d.intent = "company_news".data ∧
      d.query_hash = generate_query_hash d.original_query "company_news".data := by
    intro d hd
    rw [List.mem_singleton] at hd
    subst hd
    exact ⟨rfl, rfl⟩
  exact ⟨⟨by decide, hstore⟩,
    c6_intent_partition ⟨true, 86400⟩ _ "AAPL".data "price_movement".data
      "company_news".data 1 (by decide) hstore⟩
